import Mathlib

/-!
Verification of the checkpoint save/load logic and the training loop of the
repository (notebooks "Part 6 - Saving and Loading Models" and the training
notebook). Numeric arrays are embedded as shaped lists of rationals; the
generic object serializer (torch.save followed by torch.load on the same
path) is modelled as the identity on the stored record, which is the
fidelity the spec itself attributes to the external framework.
-/

/-- A numeric array: an explicit shape together with flattened contents.
Element values are embedded as rationals. -/
structure Tensor where
  shape : List Nat
  data : List ℚ
deriving DecidableEq, Repr

/-- The leading dimension of a tensor (its output dimension for a weight
matrix of shape [out, in] or a bias vector of shape [out]). -/
def Tensor.dim0 (t : Tensor) : Nat :=
  t.shape.headD 0

/-- A fully connected layer: nn.Linear with its weight matrix of shape
[out_features, in_features] and bias vector of shape [out_features]. -/
structure Linear where
  in_features : Nat
  out_features : Nat
  weight : Tensor
  bias : Tensor
deriving DecidableEq, Repr

/-- A parameter name of the Network module.  PyTorch names these
"hidden_layers.i.weight", "hidden_layers.i.bias", "output.weight" and
"output.bias"; the dotted strings are in bijection with this type. -/
inductive PName where
  | hiddenWeight (i : Nat)
  | hiddenBias (i : Nat)
  | outputWeight
  | outputBias
deriving DecidableEq, Repr

/-- Modelled from the spec: the fc_model.Network module imported by the
notebook (its source file is not in the repository).  Per the spec and the
architecture printed by the notebook, it is a ModuleList of hidden Linear
layers followed by an output Linear layer (the Dropout submodule holds no
parameters and is omitted). -/
structure Network where
  hidden_layers : List Linear
  output : Linear
deriving DecidableEq, Repr

/-- The input dimension of the network: the in_features of its first
hidden layer (of the output layer when there are no hidden layers). -/
def Network.input_size (m : Network) : Nat :=
  (m.hidden_layers.headD m.output).in_features

/-- The output dimension of the network: the out_features of its output
layer. -/
def Network.output_size (m : Network) : Nat :=
  m.output.out_features

/-- The hidden layer widths, in layer order: [each.out_features for each in
model.hidden_layers]. -/
def Network.hiddenSizes (m : Network) : List Nat :=
  m.hidden_layers.map Linear.out_features

/-- The named entries contributed to the state dict by the hidden layers
starting at index k: weight then bias for each layer, in layer order. -/
def hiddenEntries : Nat → List Linear → List (PName × Tensor)
  | _, [] => []
  | k, l :: ls =>
    (PName.hiddenWeight k, l.weight) :: (PName.hiddenBias k, l.bias) ::
      hiddenEntries (k + 1) ls

/-- model.state_dict(): the ordered mapping from parameter name to array,
hidden layers first (weight then bias per layer) and then the output layer,
exactly the key order the notebook prints. -/
def Network.state_dict (m : Network) : List (PName × Tensor) :=
  hiddenEntries 0 m.hidden_layers ++
    [(PName.outputWeight, m.output.weight), (PName.outputBias, m.output.bias)]

/-- Modelled from the spec: a freshly constructed nn.Linear layer.  PyTorch
draws the initial weight and bias at random; the initial values are embedded
as zeros (no claim depends on the fresh values, only on their shapes). -/
def newLinear (nin nout : Nat) : Linear :=
  { in_features := nin, out_features := nout,
    weight := { shape := [nout, nin], data := List.replicate (nout * nin) 0 },
    bias := { shape := [nout], data := List.replicate nout 0 } }

/-- The chain of hidden layers: the first layer maps the input dimension to
the first width, and each later layer maps the previous width to the next. -/
def mkChain : Nat → List Nat → List Linear
  | _, [] => []
  | d, h :: t => newLinear d h :: mkChain h t

/-- Modelled from the spec: fc_model.Network(input_size, output_size,
hidden_layers) instantiates a network whose input dimension is input_size,
whose hidden layer widths are the hidden_layers sequence in order, and whose
output dimension is output_size. -/
def newNetwork (input_size output_size : Nat) (hidden : List Nat) : Network :=
  { hidden_layers := mkChain input_size hidden,
    output := newLinear (hidden.getLastD input_size) output_size }

/-- The message of the RuntimeError raised by the framework when
load_state_dict finds missing keys, unexpected keys or size mismatches. -/
def loadStateDictError : String :=
  "Error(s) in loading state_dict for Network"

/-- The per parameter check of load_state_dict: the array sd records under
the name of parameter p exists and has the shape of p. -/
def shapeCheck (sd : List (PName × Tensor)) (p : PName × Tensor) : Bool :=
  match sd.lookup p.1 with
  | some t => t.shape == p.2.shape
  | none => false

/-- The check the framework performs in model.load_state_dict(sd) with the
default strict=True: every parameter of the model must appear in sd with the
same shape (missing keys and size mismatches), and every entry of sd must
name a parameter of the model (unexpected keys). -/
def loadCompatible (own sd : List (PName × Tensor)) : Bool :=
  own.all (shapeCheck sd) && sd.all (fun p => (own.lookup p.1).isSome)

/-- Copy the named hidden layer arrays of sd into the hidden layers starting
at index k, leaving the layer dimensions unchanged. -/
def loadHidden (sd : List (PName × Tensor)) : Nat → List Linear → List Linear
  | _, [] => []
  | k, l :: ls =>
    { l with
      weight := (sd.lookup (PName.hiddenWeight k)).getD l.weight,
      bias := (sd.lookup (PName.hiddenBias k)).getD l.bias } ::
      loadHidden sd (k + 1) ls

/-- model.load_state_dict(sd): on success, every named array of sd is copied
into the parameter of the same name; otherwise the framework raises a
RuntimeError.  The raise is modelled as leaving the model unchanged (the
caller keeps the pre-call model). -/
def Network.load_state_dict (m : Network) (sd : List (PName × Tensor)) :
    Except String Network :=
  if loadCompatible m.state_dict sd then
    Except.ok
      { hidden_layers := loadHidden sd 0 m.hidden_layers,
        output :=
          { m.output with
            weight := (sd.lookup PName.outputWeight).getD m.output.weight,
            bias := (sd.lookup PName.outputBias).getD m.output.bias } }
  else
    Except.error loadStateDictError

/-- A value stored under a top level key of the checkpoint mapping: an
integer, a sequence of integers, or a state dict. -/
inductive Value where
  | int (n : Nat)
  | intList (l : List Nat)
  | dict (d : List (PName × Tensor))
deriving DecidableEq, Repr

/-- An error escaping load_checkpoint: a KeyError from indexing the mapping,
a type mismatch of an indexed value, or the RuntimeError raised by
load_state_dict, propagated unchanged. -/
inductive LoadErr where
  | keyError (k : String)
  | typeError (k : String)
  | runtimeError (msg : String)
deriving DecidableEq, Repr

/-- The checkpoint cell of the notebook, with the two literal dimensions
passed explicitly (the cell writes them as the literals 784 and 10):
checkpoint = dict of input_size, output_size, hidden_layers read as
[each.out_features for each in model.hidden_layers], and state_dict read as
model.state_dict(). -/
def mkCheckpoint (input_size output_size : Nat) (model : Network) :
    List (String × Value) :=
  [("input_size", Value.int input_size),
   ("output_size", Value.int output_size),
   ("hidden_layers", Value.intList (model.hidden_layers.map Linear.out_features)),
   ("state_dict", Value.dict model.state_dict)]

/-- load_checkpoint(filepath): read the record back (torch.load is the
identity on what torch.save wrote), index input_size, output_size and
hidden_layers in that order (Python evaluates the three subscripts before
calling Network), construct the fresh network, index state_dict, and load it
into the fresh network, returning that model; every error propagates to the
caller. -/
def load_checkpoint (ck : List (String × Value)) : Except LoadErr Network :=
  match ck.lookup "input_size" with
  | none => Except.error (LoadErr.keyError "input_size")
  | some vIn =>
    match ck.lookup "output_size" with
    | none => Except.error (LoadErr.keyError "output_size")
    | some vOut =>
      match ck.lookup "hidden_layers" with
      | none => Except.error (LoadErr.keyError "hidden_layers")
      | some vHid =>
        match vIn, vOut, vHid with
        | Value.int isz, Value.int osz, Value.intList hs =>
          match ck.lookup "state_dict" with
          | none => Except.error (LoadErr.keyError "state_dict")
          | some (Value.dict sd) =>
            match (newNetwork isz osz hs).load_state_dict sd with
            | Except.ok m => Except.ok m
            | Except.error e => Except.error (LoadErr.runtimeError e)
          | some _ => Except.error (LoadErr.typeError "state_dict")
        | _, _, _ => Except.error (LoadErr.typeError "Network arguments")

/-- A layer of a real nn.Linear module: the weight has shape
[out_features, in_features] and the bias has shape [out_features]. -/
def Linear.shapeOk (l : Linear) : Bool :=
  l.weight.shape == [l.out_features, l.in_features] &&
    l.bias.shape == [l.out_features]

/-- The hidden layers form a chain starting at dimension d, each layer a
real nn.Linear module. -/
def wfChain : Nat → List Linear → Bool
  | _, [] => true
  | d, l :: ls => (l.in_features == d) && l.shapeOk && wfChain l.out_features ls

/-- The width feeding the output layer: the out_features of the last hidden
layer, or the input dimension when there are no hidden layers. -/
def Network.lastHidden (m : Network) : Nat :=
  ((m.hidden_layers.getLast?).map Linear.out_features).getD m.input_size

/-- The network is a value fc_model.Network can actually produce: the hidden
layers chain from the input dimension, the output layer consumes the last
hidden width, and every layer has the shapes of a real nn.Linear. -/
def Network.wf (m : Network) : Bool :=
  wfChain m.input_size m.hidden_layers &&
    (m.output.in_features == m.lastHidden) && m.output.shapeOk

/-! ### Lookup lemmas for the state dict -/

theorem lookup_cons_self {α β : Type} [DecidableEq α] (k : α) (v : β)
    (l : List (α × β)) : ((k, v) :: l).lookup k = some v := by
  simp [List.lookup]

theorem lookup_cons_ne {α β : Type} [DecidableEq α] (k q : α) (v : β)
    (l : List (α × β)) (h : q ≠ k) : ((k, v) :: l).lookup q = l.lookup q := by
  simp [List.lookup, beq_eq_false_iff_ne.mpr h]

theorem lookup_hiddenEntries_weight (ls : List Linear) (k i : Nat)
    (hi : i < ls.length) :
    (hiddenEntries k ls).lookup (PName.hiddenWeight (k + i)) =
      some ((ls.get ⟨i, hi⟩).weight) := by
  induction ls generalizing k i with
  | nil => cases hi
  | cons l ls ih =>
    cases i with
    | zero => simp [hiddenEntries, lookup_cons_self]
    | succ i =>
      have h1 : PName.hiddenWeight (k + (i + 1)) ≠ PName.hiddenWeight k := by
        simp
      have h2 : PName.hiddenWeight (k + (i + 1)) ≠ PName.hiddenBias k := by
        simp
      rw [hiddenEntries, lookup_cons_ne _ _ _ _ h1, lookup_cons_ne _ _ _ _ h2]
      have hk : k + (i + 1) = (k + 1) + i := by omega
      rw [hk, ih (k + 1) i (Nat.lt_of_succ_lt_succ hi)]
      rfl

theorem lookup_hiddenEntries_bias (ls : List Linear) (k i : Nat)
    (hi : i < ls.length) :
    (hiddenEntries k ls).lookup (PName.hiddenBias (k + i)) =
      some ((ls.get ⟨i, hi⟩).bias) := by
  induction ls generalizing k i with
  | nil => cases hi
  | cons l ls ih =>
    cases i with
    | zero =>
      have h1 : PName.hiddenBias (k + 0) ≠ PName.hiddenWeight k := by simp
      rw [hiddenEntries, lookup_cons_ne _ _ _ _ h1]
      simp [lookup_cons_self]
    | succ i =>
      have h1 : PName.hiddenBias (k + (i + 1)) ≠ PName.hiddenWeight k := by
        simp
      have h2 : PName.hiddenBias (k + (i + 1)) ≠ PName.hiddenBias k := by
        simp
      rw [hiddenEntries, lookup_cons_ne _ _ _ _ h1, lookup_cons_ne _ _ _ _ h2]
      have hk : k + (i + 1) = (k + 1) + i := by omega
      rw [hk, ih (k + 1) i (Nat.lt_of_succ_lt_succ hi)]
      rfl

theorem lookup_hiddenEntries_outputWeight (ls : List Linear) (k : Nat) :
    (hiddenEntries k ls).lookup PName.outputWeight = none := by
  induction ls generalizing k with
  | nil => rfl
  | cons l ls ih =>
    rw [hiddenEntries,
      lookup_cons_ne _ _ _ _ (by simp : PName.outputWeight ≠ PName.hiddenWeight k),
      lookup_cons_ne _ _ _ _ (by simp : PName.outputWeight ≠ PName.hiddenBias k)]
    exact ih (k + 1)

theorem lookup_hiddenEntries_outputBias (ls : List Linear) (k : Nat) :
    (hiddenEntries k ls).lookup PName.outputBias = none := by
  induction ls generalizing k with
  | nil => rfl
  | cons l ls ih =>
    rw [hiddenEntries,
      lookup_cons_ne _ _ _ _ (by simp : PName.outputBias ≠ PName.hiddenWeight k),
      lookup_cons_ne _ _ _ _ (by simp : PName.outputBias ≠ PName.hiddenBias k)]
    exact ih (k + 1)

theorem mem_hiddenEntries_key (ls : List Linear) (k : Nat)
    (p : PName × Tensor) (hp : p ∈ hiddenEntries k ls) :
    ∃ i, i < ls.length ∧
      (p.1 = PName.hiddenWeight (k + i) ∨ p.1 = PName.hiddenBias (k + i)) := by
  induction ls generalizing k with
  | nil => cases hp
  | cons l ls ih =>
    simp only [hiddenEntries, List.mem_cons] at hp
    rcases hp with h | h | h
    · exact ⟨0, Nat.succ_pos _, Or.inl (by simp [h])⟩
    · exact ⟨0, Nat.succ_pos _, Or.inr (by simp [h])⟩
    · obtain ⟨i, hi, hk⟩ := ih (k + 1) h
      refine ⟨i + 1, Nat.succ_lt_succ hi, ?_⟩
      have : (k + 1) + i = k + (i + 1) := by omega
      rw [this] at hk
      exact hk

theorem length_mkChain (d : Nat) (hs : List Nat) :
    (mkChain d hs).length = hs.length := by
  induction hs generalizing d with
  | nil => rfl
  | cons h t ih => simp [mkChain, ih]

/-! ### The round trip of the save step followed by load_checkpoint -/

/-- sd records, under the hidden parameter names starting at index k,
exactly the weights and biases of the layers ls. -/
def SdMatches (sd : List (PName × Tensor)) (k : Nat) (ls : List Linear) : Prop :=
  ∀ i (hi : i < ls.length),
    sd.lookup (PName.hiddenWeight (k + i)) = some ((ls.get ⟨i, hi⟩).weight) ∧
    sd.lookup (PName.hiddenBias (k + i)) = some ((ls.get ⟨i, hi⟩).bias)

theorem sdMatches_hiddenEntries_append (ls : List Linear) (k : Nat)
    (rest : List (PName × Tensor)) :
    SdMatches (hiddenEntries k ls ++ rest) k ls := by
  intro i hi
  constructor
  · rw [List.lookup_append, lookup_hiddenEntries_weight ls k i hi]
    rfl
  · rw [List.lookup_append, lookup_hiddenEntries_bias ls k i hi]
    rfl

theorem sdMatches_state_dict (m : Network) :
    SdMatches m.state_dict 0 m.hidden_layers :=
  sdMatches_hiddenEntries_append m.hidden_layers 0 _

theorem sdMatches_shift (sd : List (PName × Tensor)) (k : Nat) (l : Linear)
    (ls : List Linear) (h : SdMatches sd k (l :: ls)) :
    SdMatches sd (k + 1) ls := by
  intro i hi
  have := h (i + 1) (Nat.succ_lt_succ hi)
  have hk : k + (i + 1) = (k + 1) + i := by omega
  rw [hk] at this
  exact this

theorem state_dict_lookup_outputWeight (m : Network) :
    m.state_dict.lookup PName.outputWeight = some m.output.weight := by
  rw [Network.state_dict, List.lookup_append,
    lookup_hiddenEntries_outputWeight, lookup_cons_self]
  rfl

theorem state_dict_lookup_outputBias (m : Network) :
    m.state_dict.lookup PName.outputBias = some m.output.bias := by
  rw [Network.state_dict, List.lookup_append, lookup_hiddenEntries_outputBias,
    lookup_cons_ne _ _ _ _ (by simp : PName.outputBias ≠ PName.outputWeight),
    lookup_cons_self]
  rfl

theorem loadHidden_mkChain (ls : List Linear) (d k : Nat)
    (sd : List (PName × Tensor)) (hwf : wfChain d ls = true)
    (hsd : SdMatches sd k ls) :
    loadHidden sd k (mkChain d (ls.map Linear.out_features)) = ls := by
  induction ls generalizing d k with
  | nil => rfl
  | cons l ls ih =>
    simp only [wfChain, Bool.and_eq_true, beq_iff_eq] at hwf
    obtain ⟨⟨hin, hshape⟩, hchain⟩ := hwf
    have h0 := hsd 0 (Nat.succ_pos _)
    rw [Nat.add_zero] at h0
    simp only [List.map_cons, mkChain, loadHidden]
    congr 1
    · obtain ⟨lin, lout, lw, lb⟩ := l
      simp only at hin
      rw [h0.1, h0.2]
      simp [newLinear, hin]
    · exact ih l.out_features (k + 1) hchain (sdMatches_shift sd k l ls hsd)

theorem hidden_shapes_check (ls : List Linear) (d k : Nat)
    (sd : List (PName × Tensor)) (hwf : wfChain d ls = true)
    (hsd : SdMatches sd k ls) :
    (hiddenEntries k (mkChain d (ls.map Linear.out_features))).all
      (shapeCheck sd) = true := by
  induction ls generalizing d k with
  | nil => rfl
  | cons l ls ih =>
    simp only [wfChain, Bool.and_eq_true, beq_iff_eq] at hwf
    obtain ⟨⟨hin, hshape⟩, hchain⟩ := hwf
    simp only [Linear.shapeOk, Bool.and_eq_true, beq_iff_eq] at hshape
    have h0 := hsd 0 (Nat.succ_pos _)
    rw [Nat.add_zero] at h0
    simp only [List.map_cons, mkChain, hiddenEntries, List.all_cons,
      Bool.and_eq_true]
    refine ⟨?_, ?_, ?_⟩
    · rw [shapeCheck, h0.1]
      simp [newLinear, hshape.1, hin]
    · rw [shapeCheck, h0.2]
      simp [newLinear, hshape.2]
    · exact ih l.out_features (k + 1) hchain (sdMatches_shift sd k l ls hsd)

theorem getLastD_hiddenSizes (m : Network) :
    m.hiddenSizes.getLastD m.input_size = m.lastHidden := by
  rw [Network.hiddenSizes, Network.lastHidden, List.getLastD_eq_getLast?,
    List.getLast?_map]

theorem newNetwork_state_dict (isz osz : Nat) (hs : List Nat) :
    (newNetwork isz osz hs).state_dict =
      hiddenEntries 0 (mkChain isz hs) ++
        [(PName.outputWeight, (newLinear (hs.getLastD isz) osz).weight),
         (PName.outputBias, (newLinear (hs.getLastD isz) osz).bias)] := rfl

theorem newNetwork_lookup_hiddenWeight (isz osz : Nat) (hs : List Nat)
    (i : Nat) (hi : i < hs.length) :
    ((newNetwork isz osz hs).state_dict.lookup (PName.hiddenWeight i)).isSome
      = true := by
  have hi' : i < (mkChain isz hs).length := by rw [length_mkChain]; exact hi
  have h := lookup_hiddenEntries_weight (mkChain isz hs) 0 i hi'
  rw [Nat.zero_add] at h
  rw [newNetwork_state_dict, List.lookup_append, h]
  rfl

theorem newNetwork_lookup_hiddenBias (isz osz : Nat) (hs : List Nat)
    (i : Nat) (hi : i < hs.length) :
    ((newNetwork isz osz hs).state_dict.lookup (PName.hiddenBias i)).isSome
      = true := by
  have hi' : i < (mkChain isz hs).length := by rw [length_mkChain]; exact hi
  have h := lookup_hiddenEntries_bias (mkChain isz hs) 0 i hi'
  rw [Nat.zero_add] at h
  rw [newNetwork_state_dict, List.lookup_append, h]
  rfl

theorem compat_self (m : Network) (hwf : m.wf = true) :
    loadCompatible
      (newNetwork m.input_size m.output_size m.hiddenSizes).state_dict
      m.state_dict = true := by
  simp only [Network.wf, Bool.and_eq_true, beq_iff_eq] at hwf
  obtain ⟨⟨hchain, hout⟩, hos⟩ := hwf
  simp only [Linear.shapeOk, Bool.and_eq_true, beq_iff_eq] at hos
  rw [loadCompatible, Bool.and_eq_true]
  constructor
  · rw [newNetwork_state_dict, List.all_append, Bool.and_eq_true]
    constructor
    · exact hidden_shapes_check m.hidden_layers m.input_size 0 m.state_dict
        hchain (sdMatches_state_dict m)
    · simp only [List.all_cons, List.all_nil, Bool.and_eq_true]
      refine ⟨?_, ?_, trivial⟩
      · rw [shapeCheck]
        simp only
        rw [state_dict_lookup_outputWeight]
        simp only [newLinear, hos.1, beq_iff_eq, List.cons.injEq, and_true]
        rw [hout, getLastD_hiddenSizes]
        exact ⟨rfl, rfl⟩
      · rw [shapeCheck]
        simp only
        rw [state_dict_lookup_outputBias]
        simp only [newLinear, hos.2, beq_iff_eq, List.cons.injEq, and_true]
        rfl
  · rw [List.all_eq_true]
    intro p hp
    rw [Network.state_dict] at hp
    rcases List.mem_append.mp hp with hp | hp
    · obtain ⟨i, hi, hkey⟩ := mem_hiddenEntries_key m.hidden_layers 0 p hp
      rw [Nat.zero_add] at hkey
      have hi' : i < m.hiddenSizes.length := by
        rw [Network.hiddenSizes, List.length_map]; exact hi
      rcases hkey with hk | hk
      · rw [hk]
        exact newNetwork_lookup_hiddenWeight _ _ _ i hi'
      · rw [hk]
        exact newNetwork_lookup_hiddenBias _ _ _ i hi'
    · simp only [List.mem_cons, List.mem_singleton] at hp
      rcases hp with hp | hp | hp
      · rw [hp]
        rw [state_dict_lookup_outputWeight]
        rfl
      · rw [hp]
        rw [state_dict_lookup_outputBias]
        rfl
      · cases hp

theorem linear_eq_of_fields {l : Linear} {a b : Nat} {w t : Tensor}
    (h1 : a = l.in_features) (h2 : b = l.out_features) (h3 : w = l.weight)
    (h4 : t = l.bias) : Linear.mk a b w t = l := by
  cases l; cases h1; cases h2; cases h3; cases h4; rfl

theorem network_eq_of_fields {m : Network} {hl : List Linear} {out : Linear}
    (h1 : hl = m.hidden_layers) (h2 : out = m.output) :
    Network.mk hl out = m := by
  cases m; cases h1; cases h2; rfl

theorem load_state_dict_self (m : Network) (hwf : m.wf = true) :
    (newNetwork m.input_size m.output_size m.hiddenSizes).load_state_dict
      m.state_dict = Except.ok m := by
  rw [Network.load_state_dict, if_pos (compat_self m hwf)]
  simp only [Network.wf, Bool.and_eq_true, beq_iff_eq] at hwf
  obtain ⟨⟨hchain, hout⟩, hos⟩ := hwf
  have hhid : loadHidden m.state_dict 0
      (newNetwork m.input_size m.output_size m.hiddenSizes).hidden_layers =
      m.hidden_layers :=
    loadHidden_mkChain m.hidden_layers m.input_size 0 m.state_dict hchain
      (sdMatches_state_dict m)
  rw [hhid, state_dict_lookup_outputWeight, state_dict_lookup_outputBias]
  simp only [Option.getD_some]
  refine congrArg Except.ok ?_
  refine network_eq_of_fields rfl ?_
  refine linear_eq_of_fields ?_ rfl rfl rfl
  show m.hiddenSizes.getLastD m.input_size = m.output.in_features
  rw [getLastD_hiddenSizes]
  exact hout.symm

theorem load_checkpoint_mkCheckpoint (isz osz : Nat) (m : Network) :
    load_checkpoint (mkCheckpoint isz osz m) =
      match (newNetwork isz osz m.hiddenSizes).load_state_dict m.state_dict with
      | Except.ok n => Except.ok n
      | Except.error e => Except.error (LoadErr.runtimeError e) := rfl

/-- Claim C1: for every model, saving a checkpoint built from that model
(the mapping with its input_size, output_size, hidden_layers widths, and
state_dict) and then calling load_checkpoint on the saved file returns a
model whose architecture and parameter values equal those of the original
model.  The well formedness hypothesis states that the model is a value
fc_model.Network can produce; the conclusion is structural equality, which
covers both the architecture and every parameter value. -/
theorem c1_save_then_load_roundtrip (m : Network) (hwf : m.wf = true) :
    load_checkpoint (mkCheckpoint m.input_size m.output_size m) =
      Except.ok m := by
  rw [load_checkpoint_mkCheckpoint, load_state_dict_self m hwf]

/-- Witness for C1 at a concrete network. -/
def sampleNet : Network :=
  { hidden_layers :=
      [{ in_features := 2, out_features := 3,
         weight := { shape := [3, 2], data := [1, 2, 3, 4, 5, 6] },
         bias := { shape := [3], data := [7, 8, 9] } }],
    output :=
      { in_features := 3, out_features := 2,
        weight := { shape := [2, 3], data := [10, 11, 12, 13, 14, 15] },
        bias := { shape := [2], data := [16, 17] } } }

theorem c1_save_then_load_roundtrip_witness :
    sampleNet.wf = true ∧
      load_checkpoint (mkCheckpoint sampleNet.input_size
        sampleNet.output_size sampleNet) = Except.ok sampleNet :=
  ⟨by decide, c1_save_then_load_roundtrip sampleNet (by decide)⟩

/-! ### Characterization of a successful load_checkpoint (claim C2) -/

theorem mem_of_lookup_eq_some {α β : Type} [DecidableEq α]
    (l : List (α × β)) (n : α) (v : β) (h : l.lookup n = some v) :
    (n, v) ∈ l := by
  induction l with
  | nil => cases h
  | cons q l ih =>
    obtain ⟨k, w⟩ := q
    by_cases hk : n = k
    · subst hk
      rw [lookup_cons_self] at h
      cases h
      exact List.mem_cons_self _ _
    · rw [lookup_cons_ne _ _ _ _ hk] at h
      exact List.mem_cons_of_mem _ (ih h)

theorem lookup_isSome_of_mem {α β : Type} [DecidableEq α]
    (l : List (α × β)) (p : α × β) (h : p ∈ l) :
    (l.lookup p.1).isSome = true := by
  induction l with
  | nil => cases h
  | cons q l ih =>
    obtain ⟨k, w⟩ := q
    by_cases hk : p.1 = k
    · rw [hk, lookup_cons_self]
      rfl
    · rw [lookup_cons_ne _ _ _ _ hk]
      rcases List.mem_cons.mp h with h | h
      · exact absurd (congrArg Prod.fst h) hk
      · exact ih h

theorem loadHidden_outs (sd : List (PName × Tensor)) (k : Nat)
    (ls : List Linear) :
    (loadHidden sd k ls).map Linear.out_features =
      ls.map Linear.out_features := by
  induction ls generalizing k with
  | nil => rfl
  | cons l ls ih => simp [loadHidden, ih]

theorem mkChain_outs (d : Nat) (hs : List Nat) :
    (mkChain d hs).map Linear.out_features = hs := by
  induction hs generalizing d with
  | nil => rfl
  | cons h t ih => simp [mkChain, newLinear, ih]

theorem hiddenEntries_loadHidden (sd : List (PName × Tensor)) (k : Nat)
    (ls : List Linear) :
    hiddenEntries k (loadHidden sd k ls) =
      (hiddenEntries k ls).map (fun p => (p.1, (sd.lookup p.1).getD p.2)) := by
  induction ls generalizing k with
  | nil => rfl
  | cons l ls ih => simp [loadHidden, hiddenEntries, ih]

theorem lookup_map_getD {α β : Type} [DecidableEq α]
    (own sd : List (α × β)) (n : α) :
    ((own.map (fun p => (p.1, (sd.lookup p.1).getD p.2))).lookup n) =
      Option.map (fun v => (sd.lookup n).getD v) (own.lookup n) := by
  induction own with
  | nil => rfl
  | cons q own ih =>
    obtain ⟨k, w⟩ := q
    by_cases hk : n = k
    · subst hk
      simp only [List.map_cons]
      rw [lookup_cons_self, lookup_cons_self]
      rfl
    · simp only [List.map_cons]
      rw [lookup_cons_ne _ _ _ _ hk, lookup_cons_ne _ _ _ _ hk]
      exact ih

theorem loaded_state_dict_eq (own : Network) (sd : List (PName × Tensor)) :
    (Network.mk (loadHidden sd 0 own.hidden_layers)
      { own.output with
        weight := (sd.lookup PName.outputWeight).getD own.output.weight,
        bias := (sd.lookup PName.outputBias).getD own.output.bias }).state_dict
      = own.state_dict.map (fun p => (p.1, (sd.lookup p.1).getD p.2)) := by
  rw [Network.state_dict, Network.state_dict, List.map_append]
  simp [hiddenEntries_loadHidden]

theorem loaded_lookup_eq (own : Network) (sd : List (PName × Tensor))
    (hc : loadCompatible own.state_dict sd = true) (n : PName) :
    (own.state_dict.map (fun p => (p.1, (sd.lookup p.1).getD p.2))).lookup n
      = sd.lookup n := by
  rw [loadCompatible, Bool.and_eq_true, List.all_eq_true, List.all_eq_true]
    at hc
  obtain ⟨hshapes, hkeys⟩ := hc
  rw [lookup_map_getD]
  cases hov : own.state_dict.lookup n with
  | none =>
    cases hsd : sd.lookup n with
    | none => rfl
    | some t =>
      have hmem := mem_of_lookup_eq_some sd n t hsd
      have := hkeys (n, t) hmem
      simp only at this
      rw [hov] at this
      cases this
  | some v =>
    have hmem := mem_of_lookup_eq_some own.state_dict n v hov
    have hchk := hshapes (n, v) hmem
    rw [shapeCheck] at hchk
    simp only at hchk
    cases hsd : sd.lookup n with
    | none =>
      rw [hsd] at hchk
      cases hchk
    | some t => rfl

/-- Claim C2: for every configuration record containing keys input_size,
output_size, hidden_layers and state_dict, load_checkpoint instantiates a
network whose input dimension is the recorded input_size, whose hidden
layer widths are the recorded hidden_layers sequence in order and whose
output dimension is the recorded output_size, then copies each named array
of the recorded state_dict into the parameter of the same name in the
freshly constructed model, returning that model: whenever the call returns
a model, that model has the recorded dimensions and its parameter mapping
agrees with the recorded state_dict at every name. -/
theorem c2_load_checkpoint_reconstruction (ck : List (String × Value))
    (isz osz : Nat) (hs : List Nat) (sd : List (PName × Tensor)) (m : Network)
    (h1 : ck.lookup "input_size" = some (Value.int isz))
    (h2 : ck.lookup "output_size" = some (Value.int osz))
    (h3 : ck.lookup "hidden_layers" = some (Value.intList hs))
    (h4 : ck.lookup "state_dict" = some (Value.dict sd))
    (hok : load_checkpoint ck = Except.ok m) :
    m.input_size = isz ∧ m.output_size = osz ∧ m.hiddenSizes = hs ∧
      ∀ n, m.state_dict.lookup n = sd.lookup n := by
  simp only [load_checkpoint, h1, h2, h3, h4] at hok
  rw [Network.load_state_dict] at hok
  by_cases hc : loadCompatible (newNetwork isz osz hs).state_dict sd
  · rw [if_pos hc] at hok
    simp only [Except.ok.injEq] at hok
    subst hok
    refine ⟨?_, rfl, ?_, ?_⟩
    · cases hs with
      | nil =>
        simp [Network.input_size, newNetwork, mkChain, loadHidden, newLinear]
      | cons h t =>
        simp [Network.input_size, newNetwork, mkChain, loadHidden, newLinear]
    · show (loadHidden sd 0 (newNetwork isz osz hs).hidden_layers).map
        Linear.out_features = hs
      rw [loadHidden_outs]
      exact mkChain_outs isz hs
    · intro n
      rw [loaded_state_dict_eq (newNetwork isz osz hs) sd]
      exact loaded_lookup_eq (newNetwork isz osz hs) sd hc n
  · rw [if_neg hc] at hok
    cases hok

/-- Witness for C2 at a concrete checkpoint record. -/
theorem c2_load_checkpoint_reconstruction_witness :
    sampleNet.input_size = 2 ∧ sampleNet.output_size = 2 ∧
      sampleNet.hiddenSizes = [3] ∧
      sampleNet.state_dict.lookup PName.outputBias =
        sampleNet.state_dict.lookup PName.outputBias :=
  have h := c2_load_checkpoint_reconstruction (mkCheckpoint 2 2 sampleNet)
    2 2 [3] sampleNet.state_dict sampleNet rfl rfl rfl rfl rfl
  ⟨h.1, h.2.1, h.2.2.1, h.2.2.2 PName.outputBias⟩

/-! ### Failure modes of load_checkpoint (claim C3) -/

/-- The two key set checks of load_state_dict: every parameter of the model
is recorded and every recorded name names a parameter (no missing keys and
no unexpected keys). -/
def keysAligned (own sd : List (PName × Tensor)) : Bool :=
  own.all (fun p => (sd.lookup p.1).isSome) &&
    sd.all (fun p => (own.lookup p.1).isSome)

/-- No array recorded in sd under the name of a parameter of the model
differs in shape from that parameter. -/
def noShapeMismatch (own sd : List (PName × Tensor)) : Bool :=
  own.all (fun p =>
    match sd.lookup p.1 with
    | some t => t.shape == p.2.shape
    | none => true)

theorem all_and_distrib {α : Type} (l : List α) (f g : α → Bool) :
    l.all (fun x => f x && g x) = (l.all f && l.all g) := by
  induction l with
  | nil => rfl
  | cons x l ih =>
    simp only [List.all_cons, ih]
    cases f x <;> cases g x <;> simp

theorem loadCompatible_decomp (own sd : List (PName × Tensor)) :
    loadCompatible own sd =
      (keysAligned own sd && noShapeMismatch own sd) := by
  rw [loadCompatible, keysAligned, noShapeMismatch]
  have hf : shapeCheck sd = fun p =>
      ((sd.lookup p.1).isSome &&
        match sd.lookup p.1 with
        | some t => t.shape == p.2.shape
        | none => true) := by
    funext p
    rw [shapeCheck]
    cases sd.lookup p.1 <;> rfl
  rw [hf, all_and_distrib]
  cases own.all fun p => (sd.lookup p.1).isSome <;>
    cases sd.all fun p => (own.lookup p.1).isSome <;>
    cases own.all fun p =>
      match sd.lookup p.1 with
      | some t => t.shape == p.2.shape
      | none => true <;>
    rfl

/-- A record with all four keys present and well typed whose state_dict is
empty while the recorded hidden_layers sequence is not. -/
def emptySdCheckpoint : List (String × Value) :=
  [("input_size", Value.int 1), ("output_size", Value.int 1),
   ("hidden_layers", Value.intList [1]), ("state_dict", Value.dict [])]

/-- Counterexample for C3 as stated: load_checkpoint fails on this record
although no array recorded in its state_dict mismatches any parameter shape
of the freshly constructed model (the state_dict records no arrays at all);
the failure comes from missing parameter names, not from a shape mismatch,
so failure is not equivalent to a shape mismatch. -/
theorem c3_counterexample :
    load_checkpoint emptySdCheckpoint =
      Except.error (LoadErr.runtimeError loadStateDictError) ∧
      noShapeMismatch (newNetwork 1 1 [1]).state_dict [] = true :=
  ⟨rfl, rfl⟩

/-- Claim C3 (amended): given a checkpoint whose four entries are present
and well typed and whose recorded state_dict carries exactly the parameter
names of the freshly constructed model, load_checkpoint fails iff some
recorded array differs in shape from the parameter of the same name, and
every failure is exactly the RuntimeError of the framework call
load_state_dict, propagated unchanged (the original code adds no
validation, no retry and no recovery). -/
theorem c3_amended_fail_iff_shape_mismatch (ck : List (String × Value))
    (isz osz : Nat) (hs : List Nat) (sd : List (PName × Tensor))
    (h1 : ck.lookup "input_size" = some (Value.int isz))
    (h2 : ck.lookup "output_size" = some (Value.int osz))
    (h3 : ck.lookup "hidden_layers" = some (Value.intList hs))
    (h4 : ck.lookup "state_dict" = some (Value.dict sd))
    (hkeys : keysAligned (newNetwork isz osz hs).state_dict sd = true) :
    ((∃ e, load_checkpoint ck = Except.error e) ↔
      noShapeMismatch (newNetwork isz osz hs).state_dict sd = false) ∧
    ∀ e, load_checkpoint ck = Except.error e →
      e = LoadErr.runtimeError loadStateDictError := by
  simp only [load_checkpoint, h1, h2, h3, h4]
  rw [Network.load_state_dict, loadCompatible_decomp, hkeys, Bool.true_and]
  cases hns : noShapeMismatch (newNetwork isz osz hs).state_dict sd
  · simp
  · simp

/-- A recorded state_dict with exactly the parameter names of
newNetwork 1 1 [1] but wrong shapes everywhere possible. -/
def mismatchSd : List (PName × Tensor) :=
  [(PName.hiddenWeight 0, { shape := [2, 1], data := [0, 0] }),
   (PName.hiddenBias 0, { shape := [2], data := [0, 0] }),
   (PName.outputWeight, { shape := [1, 2], data := [0, 0] }),
   (PName.outputBias, { shape := [1], data := [0] })]

/-- A checkpoint record whose state_dict has aligned names but mismatched
shapes. -/
def mismatchCheckpoint : List (String × Value) :=
  [("input_size", Value.int 1), ("output_size", Value.int 1),
   ("hidden_layers", Value.intList [1]), ("state_dict", Value.dict mismatchSd)]

/-- Witness for the amended C3 at a concrete record with aligned names. -/
theorem c3_amended_fail_iff_shape_mismatch_witness :
    keysAligned (newNetwork 1 1 [1]).state_dict mismatchSd = true ∧
      ((∃ e, load_checkpoint mismatchCheckpoint = Except.error e) ↔
        noShapeMismatch (newNetwork 1 1 [1]).state_dict mismatchSd = false) :=
  ⟨by decide,
    (c3_amended_fail_iff_shape_mismatch mismatchCheckpoint 1 1 [1] mismatchSd
      rfl rfl rfl rfl (by decide)).1⟩

/-- Claim C4: the checkpoint record written by the save step is a mapping
with exactly the four keys input_size (an integer), output_size (an
integer), hidden_layers (the out_features of each hidden layer of the saved
model, in layer order) and state_dict (the mapping from parameter name to
array); the key list is exactly these four, so no other key, no version
field and no integrity field is present. -/
theorem c4_checkpoint_exact_keys (isz osz : Nat) (m : Network) :
    (mkCheckpoint isz osz m).map Prod.fst =
      ["input_size", "output_size", "hidden_layers", "state_dict"] ∧
    (mkCheckpoint isz osz m).lookup "input_size" = some (Value.int isz) ∧
    (mkCheckpoint isz osz m).lookup "output_size" = some (Value.int osz) ∧
    (mkCheckpoint isz osz m).lookup "hidden_layers" =
      some (Value.intList (m.hidden_layers.map Linear.out_features)) ∧
    (mkCheckpoint isz osz m).lookup "state_dict" =
      some (Value.dict m.state_dict) :=
  ⟨rfl, rfl, rfl, rfl, rfl⟩

/-- Claim C5: every checkpoint record produced by the save step is
internally shape consistent: for each hidden layer index i, the i-th entry
of the recorded hidden_layers sequence equals the output dimension of the
weight array and of the bias array recorded in the state_dict for hidden
layer i, both being read from the same model object at save time.  The
hypothesis states that every hidden layer has the shapes of a real
nn.Linear module. -/
theorem c5_checkpoint_shape_consistent (isz osz : Nat) (m : Network)
    (i : Nat) (hi : i < m.hiddenSizes.length)
    (hok : m.hidden_layers.all Linear.shapeOk = true) :
    (mkCheckpoint isz osz m).lookup "hidden_layers" =
      some (Value.intList m.hiddenSizes) ∧
    (mkCheckpoint isz osz m).lookup "state_dict" =
      some (Value.dict m.state_dict) ∧
    ∃ w b, m.state_dict.lookup (PName.hiddenWeight i) = some w ∧
      m.state_dict.lookup (PName.hiddenBias i) = some b ∧
      m.hiddenSizes.get ⟨i, hi⟩ = w.dim0 ∧
      m.hiddenSizes.get ⟨i, hi⟩ = b.dim0 := by
  have hi' : i < m.hidden_layers.length := by
    rw [Network.hiddenSizes, List.length_map] at hi
    exact hi
  have hsd := sdMatches_state_dict m i hi'
  rw [Nat.zero_add] at hsd
  refine ⟨rfl, rfl, (m.hidden_layers.get ⟨i, hi'⟩).weight,
    (m.hidden_layers.get ⟨i, hi'⟩).bias, hsd.1, hsd.2, ?_, ?_⟩
  · have hmem := List.get_mem m.hidden_layers i hi'
    have hsh := List.all_eq_true.mp hok _ hmem
    rw [Linear.shapeOk, Bool.and_eq_true, beq_iff_eq, beq_iff_eq] at hsh
    rw [Tensor.dim0, hsh.1]
    simp [Network.hiddenSizes]
  · have hmem := List.get_mem m.hidden_layers i hi'
    have hsh := List.all_eq_true.mp hok _ hmem
    rw [Linear.shapeOk, Bool.and_eq_true, beq_iff_eq, beq_iff_eq] at hsh
    rw [Tensor.dim0, hsh.2]
    simp [Network.hiddenSizes]

/-- Witness for C5 at the concrete network. -/
theorem c5_checkpoint_shape_consistent_witness :
    (0 < sampleNet.hiddenSizes.length ∧
      sampleNet.hidden_layers.all Linear.shapeOk = true) ∧
    ((mkCheckpoint 2 2 sampleNet).lookup "hidden_layers" =
      some (Value.intList sampleNet.hiddenSizes) ∧
    (mkCheckpoint 2 2 sampleNet).lookup "state_dict" =
      some (Value.dict sampleNet.state_dict) ∧
    ∃ w b, sampleNet.state_dict.lookup (PName.hiddenWeight 0) = some w ∧
      sampleNet.state_dict.lookup (PName.hiddenBias 0) = some b ∧
      sampleNet.hiddenSizes.get ⟨0, by decide⟩ = w.dim0 ∧
      sampleNet.hiddenSizes.get ⟨0, by decide⟩ = b.dim0) :=
  ⟨⟨by decide, by decide⟩,
    c5_checkpoint_shape_consistent 2 2 sampleNet 0 (by decide) (by decide)⟩

/-! ### The executed cell sequence of the Part 6 notebook (claim C6) -/

/-- Cell 5 of the notebook: model = fc_model.Network(784, 10,
[512, 256, 128]), the network the training then runs on. -/
def model_v1 : Network := newNetwork 784 10 [512, 256, 128]

/-- Cell 6: fc_model.train(model, ...) updates the parameters of the model
in place.  Training is framework code; it is abstracted as a function on
the model. -/
def model_v2 (trainF : Network → Network) : Network := trainF model_v1

/-- Cells 8 and 9: torch.save(model.state_dict(), ...) followed by
state_dict = torch.load(...); the serializer round trip is the identity. -/
def saved_state_dict (trainF : Network → Network) : List (PName × Tensor) :=
  (model_v2 trainF).state_dict

/-- Cell 11: model = fc_model.Network(784, 10, [400, 200, 100]), the
deliberately different architecture of the failure demonstration; the name
model now refers to this fresh untrained network. -/
def model_v3 : Network := newNetwork 784 10 [400, 200, 100]

/-- Cells 11 and 12: model.load_state_dict(state_dict) raises a
RuntimeError; on the raise the binding keeps its model. -/
def model_v4 (trainF : Network → Network) : Network :=
  match model_v3.load_state_dict (saved_state_dict trainF) with
  | Except.ok n => n
  | Except.error _ => model_v3

/-- Cell 13, the save step: the checkpoint dictionary is built from the
model currently in scope, which is the rebound model of cell 11. -/
def part6Checkpoint (trainF : Network → Network) : List (String × Value) :=
  mkCheckpoint 784 10 (model_v4 trainF)

theorem model_v4_hiddenSizes (trainF : Network → Network) :
    (model_v4 trainF).hiddenSizes = [400, 200, 100] := by
  rw [model_v4]
  cases h : model_v3.load_state_dict (saved_state_dict trainF) with
  | error e =>
    rfl
  | ok n =>
    rw [Network.load_state_dict] at h
    by_cases hc : loadCompatible model_v3.state_dict (saved_state_dict trainF)
    · rw [if_pos hc] at h
      injection h with h
      rw [← h]
      show (loadHidden _ 0 model_v3.hidden_layers).map Linear.out_features = _
      rw [loadHidden_outs]
      rfl
    · rw [if_neg hc] at h
      cases h

/-- Claim C6 is contradicted by the executed cells: at the checkpoint cell
the name model refers to the fresh Network(784, 10, [400, 200, 100]) from
the failed load demonstration, so the record pairs THAT configuration and
THOSE parameter arrays, not the configuration and learned values of the
model the training ran on, whose hidden widths are [512, 256, 128].  The
hypothesis states that training preserves the architecture, as the
framework optimizer does. -/
theorem c6_checkpoint_records_untrained_model (trainF : Network → Network)
    (hpres : ∀ n, (trainF n).hiddenSizes = n.hiddenSizes) :
    (part6Checkpoint trainF).lookup "hidden_layers" =
      some (Value.intList [400, 200, 100]) ∧
    (part6Checkpoint trainF).lookup "state_dict" =
      some (Value.dict (model_v4 trainF).state_dict) ∧
    (model_v4 trainF).hiddenSizes = [400, 200, 100] ∧
    (model_v2 trainF).hiddenSizes = [512, 256, 128] ∧
    ([400, 200, 100] : List Nat) ≠ [512, 256, 128] := by
  refine ⟨?_, rfl, model_v4_hiddenSizes trainF, ?_, by decide⟩
  · show some (Value.intList (model_v4 trainF).hiddenSizes) =
      some (Value.intList [400, 200, 100])
    rw [model_v4_hiddenSizes trainF]
  · rw [model_v2, hpres]
    rfl

/-- Witness for the C6 theorem with the identity as the abstracted
training function. -/
theorem c6_checkpoint_records_untrained_model_witness :
    (∀ n : Network, (id n).hiddenSizes = n.hiddenSizes) ∧
    (part6Checkpoint id).lookup "hidden_layers" =
      some (Value.intList [400, 200, 100]) ∧
    (model_v2 id).hiddenSizes = [512, 256, 128] :=
  have h := c6_checkpoint_records_untrained_model id (fun _ => rfl)
  ⟨fun _ => rfl, h.1, h.2.2.2.1⟩

/-! ### The training loop of the training notebook (claims C7 and C10) -/

/-- The per batch loss values produced when the given training pass step
runs over the batches from state s, in order. -/
def batchLosses {σ β : Type} (step : σ → β → σ × ℚ) : σ → List β → List ℚ
  | _, [] => []
  | s, b :: bs => (step s b).2 :: batchLosses step (step s b).1 bs

/-- The state after the given training pass step runs over the batches. -/
def runBatches {σ β : Type} (step : σ → β → σ × ℚ) : σ → List β → σ
  | s, [] => s
  | s, b :: bs => runBatches step (step s b).1 bs

/-- One epoch of the loop: running_loss = 0, then for each batch run the
training pass and add loss.item() to running_loss. -/
def trainEpoch {σ β : Type} (step : σ → β → σ × ℚ) (s : σ)
    (batches : List β) : σ × ℚ :=
  batches.foldl (fun acc b => ((step acc.1 b).1, acc.2 + (step acc.1 b).2))
    (s, 0)

/-- The loop of the training notebook: for e in range(epochs), run one
epoch over the batch sequence and print running_loss / len(trainloader).
The returned list holds the printed training loss values, one line per
epoch, in epoch order.  The per batch training pass is the framework work
of the body and is passed in as step. -/
def trainLoop {σ β : Type} (step : σ → β → σ × ℚ) (batches : List β) :
    Nat → σ → σ × List ℚ
  | 0, s => (s, [])
  | e + 1, s =>
    let ep := trainEpoch step s batches
    let rest := trainLoop step batches e ep.1
    (rest.1, ep.2 / (batches.length : ℚ) :: rest.2)

/-- The state after e full epochs. -/
def stateAfter {σ β : Type} (step : σ → β → σ × ℚ) (batches : List β) :
    Nat → σ → σ
  | 0, s => s
  | e + 1, s => stateAfter step batches e (runBatches step s batches)

theorem foldl_loss {σ β : Type} (step : σ → β → σ × ℚ) (batches : List β)
    (s : σ) (c : ℚ) :
    batches.foldl (fun acc b => ((step acc.1 b).1, acc.2 + (step acc.1 b).2))
      (s, c) =
      (runBatches step s batches, c + (batchLosses step s batches).sum) := by
  induction batches generalizing s c with
  | nil => simp [runBatches, batchLosses]
  | cons b bs ih =>
    simp only [List.foldl_cons, runBatches, batchLosses, List.sum_cons]
    rw [ih]
    simp [add_assoc]

theorem trainEpoch_eq {σ β : Type} (step : σ → β → σ × ℚ) (s : σ)
    (batches : List β) :
    trainEpoch step s batches =
      (runBatches step s batches, (batchLosses step s batches).sum) := by
  rw [trainEpoch, foldl_loss]
  rw [zero_add]

theorem batchLosses_length {σ β : Type} (step : σ → β → σ × ℚ) (s : σ)
    (batches : List β) :
    (batchLosses step s batches).length = batches.length := by
  induction batches generalizing s with
  | nil => rfl
  | cons b bs ih => simp [batchLosses, ih]

/-- Claim C7: for every fixed epoch count and every finite batch sequence
the training loop terminates, executing exactly epochs outer iterations;
each epoch iterates once over the batch sequence (as many training passes
as batches), and after each epoch exactly one training loss line is
printed, equal to the sum of the per batch loss values of that epoch
divided by the number of batches. -/
theorem c7_training_loop_terminates {σ β : Type} (step : σ → β → σ × ℚ)
    (batches : List β) (epochs : Nat) (s : σ) :
    (trainLoop step batches epochs s).2.length = epochs ∧
    ∀ e, e < epochs →
      (trainLoop step batches epochs s).2.getD e 0 =
        (batchLosses step (stateAfter step batches e s) batches).sum /
          (batches.length : ℚ) ∧
      (batchLosses step (stateAfter step batches e s) batches).length =
        batches.length := by
  induction epochs generalizing s with
  | zero => exact ⟨rfl, fun e he => absurd he (Nat.not_lt_zero e)⟩
  | succ n ih =>
    constructor
    · simp only [trainLoop, List.length_cons]
      rw [(ih _).1]
    · intro e he
      cases e with
      | zero =>
        simp only [trainLoop, stateAfter, List.getD_cons_zero]
        rw [trainEpoch_eq]
        exact ⟨rfl, batchLosses_length step s batches⟩
      | succ e =>
        simp only [trainLoop, stateAfter, List.getD_cons_succ]
        rw [trainEpoch_eq]
        exact (ih _).2 e (Nat.lt_of_succ_lt_succ he)

/-- Witness for C7 with a concrete step function and batch list. -/
theorem c7_training_loop_terminates_witness :
    (0 < 2) ∧
    (trainLoop (fun (s b : ℚ) => (s + b, b)) [1, 2] 2 0).2.length = 2 ∧
    (trainLoop (fun (s b : ℚ) => (s + b, b)) [1, 2] 2 0).2.getD 0 0 =
      (batchLosses (fun (s b : ℚ) => (s + b, b))
        (stateAfter (fun (s b : ℚ) => (s + b, b)) [1, 2] 0 0) [1, 2]).sum /
        (([1, 2] : List ℚ).length : ℚ) :=
  have h := c7_training_loop_terminates (fun (s b : ℚ) => (s + b, b))
    [1, 2] 2 0
  ⟨by decide, h.1, (h.2 0 (by decide)).1⟩

/-- The optimizer and model state one training pass sees: the current
parameter values and the gradient buffer the framework accumulates into. -/
structure OptState (P G : Type) where
  params : P
  grad : G
deriving DecidableEq, Repr

/-- optimizer.zero_grad(): clear the gradient buffer. -/
def zeroGrad {P G : Type} [Zero G] (s : OptState P G) : OptState P G :=
  { s with grad := 0 }

/-- loss.backward(): the framework accumulates the gradient of the current
batch loss at the current parameters into the buffer (repeated backward
calls add up, as the notebook text warns). -/
def backward {P G β : Type} [Add G] (gradOf : P → β → G)
    (s : OptState P G) (b : β) : OptState P G :=
  { s with grad := s.grad + gradOf s.params b }

/-- optimizer.step(): update the parameters using the gradient buffer. -/
def optStep {P G : Type} (upd : P → G → P) (s : OptState P G) :
    OptState P G :=
  { s with params := upd s.params s.grad }

/-- The training pass of the loop body, in source order:
optimizer.zero_grad(), forward pass and loss (computed from the current
parameters), loss.backward(), optimizer.step(); running_loss receives
loss.item(). -/
def trainingPass {P G β : Type} [Zero G] [Add G] (gradOf : P → β → G)
    (upd : P → G → P) (lossOf : P → β → ℚ) (s : OptState P G) (b : β) :
    OptState P G × ℚ :=
  (optStep upd (backward gradOf (zeroGrad s) b), lossOf s.params b)

/-- Claim C10: gradients are zeroed before the backward pass of every
iteration, so the optimizer step uses exactly the gradient of the current
batch loss, the buffer the iteration leaves behind is that same gradient,
and the whole pass is independent of whatever gradient had accumulated
before it ran: gradients never accumulate across batches or epochs. -/
theorem c10_zero_grad_no_accumulation {P G β : Type} [AddZeroClass G]
    (gradOf : P → β → G) (upd : P → G → P) (lossOf : P → β → ℚ)
    (s : OptState P G) (b : β) (stale : G) :
    (trainingPass gradOf upd lossOf s b).1.params =
      upd s.params (gradOf s.params b) ∧
    (trainingPass gradOf upd lossOf s b).1.grad = gradOf s.params b ∧
    trainingPass gradOf upd lossOf { s with grad := stale } b =
      trainingPass gradOf upd lossOf s b := by
  refine ⟨?_, ?_, ?_⟩ <;>
    simp [trainingPass, optStep, backward, zeroGrad, zero_add]

/-- Witness for C10 at concrete rational data with a stale nonzero
gradient left in the buffer. -/
theorem c10_zero_grad_no_accumulation_witness :
    (trainingPass (fun (p b : ℚ) => p * b) (fun p g => p - g)
      (fun p b => p + b) { params := 1, grad := 5 } 2).1.params =
      (1 : ℚ) - 1 * 2 ∧
    (trainingPass (fun (p b : ℚ) => p * b) (fun p g => p - g)
      (fun p b => p + b) { params := 1, grad := 5 } 2).1.grad =
      (1 : ℚ) * 2 ∧
    trainingPass (fun (p b : ℚ) => p * b) (fun p g => p - g)
      (fun p b => p + b)
      { params := (1 : ℚ), grad := (9 : ℚ) } 2 =
    trainingPass (fun (p b : ℚ) => p * b) (fun p g => p - g)
      (fun p b => p + b) { params := 1, grad := 5 } 2 :=
  c10_zero_grad_no_accumulation (fun (p b : ℚ) => p * b) (fun p g => p - g)
    (fun p b => p + b) { params := 1, grad := 5 } 2 9

/-- The three configuration entries that are indexed before Network is
constructed have, when present, their documented types. -/
def typedOrAbsent (ck : List (String × Value)) : Bool :=
  (match ck.lookup "input_size" with
   | some (Value.int _) => true
   | none => true
   | some _ => false) &&
  (match ck.lookup "output_size" with
   | some (Value.int _) => true
   | none => true
   | some _ => false) &&
  (match ck.lookup "hidden_layers" with
   | some (Value.intList _) => true
   | none => true
   | some _ => false)

/-- At least one of the four keys load_checkpoint indexes is absent. -/
def missingSomeKey (ck : List (String × Value)) : Bool :=
  (ck.lookup "input_size").isNone || (ck.lookup "output_size").isNone ||
    (ck.lookup "hidden_layers").isNone || (ck.lookup "state_dict").isNone

/-- Claim C9: for every mapping lacking any of the keys input_size,
output_size, hidden_layers or state_dict (whose present configuration
entries have their documented types), load_checkpoint raises a key lookup
error naming one of the four keys and does not return a model: the function
supplies no defaults and performs no key presence validation before
indexing the record. -/
theorem c9_missing_key_raises (ck : List (String × Value))
    (htyped : typedOrAbsent ck = true) (hmiss : missingSomeKey ck = true) :
    (∃ k, k ∈ (["input_size", "output_size", "hidden_layers",
        "state_dict"] : List String) ∧
      load_checkpoint ck = Except.error (LoadErr.keyError k)) ∧
    ∀ m, load_checkpoint ck ≠ Except.ok m := by
  rw [typedOrAbsent, Bool.and_eq_true, Bool.and_eq_true] at htyped
  obtain ⟨⟨ht1, ht2⟩, ht3⟩ := htyped
  cases h1 : ck.lookup "input_size" with
  | none =>
    constructor
    · exact ⟨"input_size", by simp, by simp [load_checkpoint, h1]⟩
    · intro m
      simp [load_checkpoint, h1]
  | some v1 =>
    rw [h1] at ht1
    cases v1 with
    | intList l => simp at ht1
    | dict d => simp at ht1
    | int isz =>
      cases h2 : ck.lookup "output_size" with
      | none =>
        constructor
        · exact ⟨"output_size", by simp, by simp [load_checkpoint, h1, h2]⟩
        · intro m
          simp [load_checkpoint, h1, h2]
      | some v2 =>
        rw [h2] at ht2
        cases v2 with
        | intList l => simp at ht2
        | dict d => simp at ht2
        | int osz =>
          cases h3 : ck.lookup "hidden_layers" with
          | none =>
            constructor
            · exact ⟨"hidden_layers", by simp,
                by simp [load_checkpoint, h1, h2, h3]⟩
            · intro m
              simp [load_checkpoint, h1, h2, h3]
          | some v3 =>
            rw [h3] at ht3
            cases v3 with
            | int n => simp at ht3
            | dict d => simp at ht3
            | intList hs =>
              cases h4 : ck.lookup "state_dict" with
              | none =>
                constructor
                · exact ⟨"state_dict", by simp,
                    by simp [load_checkpoint, h1, h2, h3, h4]⟩
                · intro m
                  simp [load_checkpoint, h1, h2, h3, h4]
              | some v4 =>
                rw [missingSomeKey, h1, h2, h3, h4] at hmiss
                simp at hmiss

/-- Witness for C9 at a concrete record that has only input_size. -/
theorem c9_missing_key_raises_witness :
    (typedOrAbsent [("input_size", Value.int 784)] = true ∧
      missingSomeKey [("input_size", Value.int 784)] = true) ∧
    ((∃ k, k ∈ (["input_size", "output_size", "hidden_layers",
        "state_dict"] : List String) ∧
      load_checkpoint [("input_size", Value.int 784)] =
        Except.error (LoadErr.keyError k)) ∧
    ∀ m, load_checkpoint [("input_size", Value.int 784)] ≠ Except.ok m) :=
  ⟨⟨by decide, by decide⟩,
    c9_missing_key_raises [("input_size", Value.int 784)] (by decide)
      (by decide)⟩
